import Mathlib

/-!
# rwall: wallpaper selector, thumbnail cache and remote wallpaper pipeline

A shallow embedding of `rwall.c`.  The program's own functions are translated
one by one and keep their C names.  What the program obtains from libraries
(GLib, GdkPixbuf, json-glib, libsoup, libc) is split in two:

* `Env`   : pure library functions whose values the program never inspects
            beyond passing them on (digest, case folding, image codec, JSON
            parser, the home directory);
* `World` : the mutable outside world (file system, clock, directory listings,
            the remote endpoint, the outcome of disk writes and of `system`),
            together with a trace of the observable actions performed so far.

Stateful functions take a `World` and return their C result paired with the
world they leave behind.  A `NULL` pointer result is `none`.
-/

namespace Rwall

/-! ## Data model -/

/-- Raw file or response contents. -/
abbrev Bytes := List Nat

/-- In-memory decoded image (`GdkPixbuf`). -/
structure Raster where
  width : Nat
  height : Nat
  pixels : List Nat
deriving DecidableEq, Repr

/-- One entry of the file system: what `stat` and `open` can see of a path. -/
structure FileNode where
  isDir : Bool
  st_mtime : Int
  content : Bytes
deriving DecidableEq, Repr

/-- Response of `soup_session_send_message`: `msg->status_code` and
`msg->response_body`. -/
structure SoupMessage where
  status_code : Nat
  response_body : Bytes
deriving DecidableEq, Repr

/-- Scalar held by a json-glib `JSON_NODE_VALUE` node. -/
inductive JsonValue where
  | int (n : Int)
  | double (repr : String)
  | boolean (b : Bool)
  | string (s : String)
deriving DecidableEq, Repr

/-- A json-glib `JsonNode`: the four node types `JSON_NODE_OBJECT`,
`JSON_NODE_ARRAY`, `JSON_NODE_VALUE`, `JSON_NODE_NULL`.  An object is the list
of its members; the member a name denotes is the first one with that name. -/
inductive JsonNode where
  | null
  | value (v : JsonValue)
  | array (elements : List JsonNode)
  | object (members : List (String × JsonNode))

/-- The three ways `gdk_pixbuf_save` to a file can end: the file is written;
the file cannot be opened for writing (nothing changes); writing fails after
the file was opened, in which case GdkPixbuf unlinks it. -/
inductive SaveOutcome where
  | saved
  | cannotOpen
  | failedAfterOpen
deriving DecidableEq, Repr

/-- Observable actions, in the order the program performs them. -/
inductive Event where
  | httpGet (url : String)
  | load (path : String)
  | decode (path : String)
  | save (path : String)
  | write (path : String)
  | mkdir (path : String)
  | system (command : String)
deriving DecidableEq, Repr

/-- Pure library functions used by the program. -/
structure Env where
  /-- Model of `g_checksum` with `G_CHECKSUM_MD5`, as a hexadecimal string. -/
  md5 : String → String
  /-- Model of `g_utf8_strdown`. -/
  strdown : String → String
  /-- Model of `g_get_home_dir`. -/
  home : String
  /-- Decoder behind `gdk_pixbuf_new_from_file`. -/
  load : Bytes → Option Raster
  /-- Decoder behind `gdk_pixbuf_new_from_file_at_scale` with the given
  width, height and aspect-preserving flag. -/
  loadAtScale : Bytes → Nat → Nat → Bool → Option Raster
  /-- PNG encoder behind `gdk_pixbuf_save (.., "png", ..)`. -/
  encodePng : Raster → Bytes
  /-- Model of `json_parser_load_from_data` followed by `json_parser_get_root`:
  `none` is a parse error, `some none` a document without a root node. -/
  parseJson : Bytes → Option (Option JsonNode)

/-- The library functions of `Env` together with the contract of GdkPixbuf's
PNG module: a file written by `gdk_pixbuf_save (.., "png", ..)` is a PNG file
that `gdk_pixbuf_new_from_file` loads. -/
structure PngEnv extends Env where
  load_encodePng : ∀ r : Raster, ∃ r', load (encodePng r) = some r'

/-- The outside world. -/
structure World where
  /-- Files and directories by path. -/
  fs : String → Option FileNode
  /-- Names `g_dir_read_name` yields for a directory, in enumeration order;
  `none` when `g_dir_open` fails. -/
  readdir : String → Option (List String)
  /-- Wall clock stamped on files when they are written. -/
  clock : Int
  /-- The remote side: the response a GET of a URL receives. -/
  http : String → SoupMessage
  /-- How a `gdk_pixbuf_save` to a path ends. -/
  saveOutcome : String → SaveOutcome
  /-- Whether `g_file_set_contents` to a path succeeds. -/
  writeOk : String → Bool
  /-- Whether `g_mkdir_with_parents` of a path succeeds. -/
  mkdirOk : String → Bool
  /-- Exit status `system` returns for a command line. -/
  system : String → Int
  /-- Actions performed so far, oldest first. -/
  trace : List Event

/-- Record one action. -/
def World.emit (w : World) (e : Event) : World :=
  { w with trace := w.trace ++ [e] }

/-- Replace what the file system holds at one path. -/
def World.setNode (w : World) (path : String) (n : Option FileNode) : World :=
  { w with fs := fun q => if q = path then n else w.fs q }

/-! ## Constants of `rwall.c` -/

def WALLPAPER_DIR : String := "/home/jared/wallpapers"
def THUMBNAIL_SIZE : Nat := 128
def SOUP_STATUS_OK : Nat := 200

/-! ## GLib string and path helpers -/

/-- Model of `g_str_has_suffix`: false when `str` is shorter than `suffix`, otherwise
compares the tail of `str` of the suffix's length with `suffix`. -/
def g_str_has_suffix (str suffix : String) : Bool :=
  let str_len := str.data.length
  let suffix_len := suffix.data.length
  if str_len < suffix_len then false
  else str.data.drop (str_len - suffix_len) == suffix.data

/-- State of the loop of GLib's `g_build_path_va` for the separator `/`. -/
structure BuildPathState where
  result : List Char
  is_first : Bool
  have_leading : Bool
  single_element : Option (List Char)
  last_trailing : Option (List Char)

/-- Drop the separators at the end of a character list. -/
def dropTrailingSep (cs : List Char) : List Char :=
  (cs.reverse.dropWhile (fun ch => ch == '/')).reverse

/-- One iteration of the loop of `g_build_path_va`: empty elements are
skipped; the leading separators of the first non-empty element are kept;
between elements exactly one separator is inserted. -/
def buildPathStep (st : BuildPathState) (element : List Char) : BuildPathState :=
  if element.isEmpty then st
  else
    let start := element.dropWhile (fun ch => ch == '/')
    let body := dropTrailingSep start
    let last_trailing :=
      if body.isEmpty then element else start.drop body.length
    let st1 : BuildPathState :=
      if st.have_leading then
        { st with single_element := none, last_trailing := some last_trailing }
      else
        { st with
          single_element := if body.isEmpty then some element else st.single_element
          result := st.result ++ element.take (element.length - start.length)
          have_leading := true
          last_trailing := some last_trailing }
    if body.isEmpty then st1
    else
      { st1 with
        result := (if st1.is_first then st1.result else st1.result ++ ['/']) ++ body
        is_first := false }

/-- Model of `g_build_filename` on Unix, i.e. `g_build_path ("/", ...)`. -/
def g_build_filename (elements : List String) : String :=
  let st := (elements.map String.data).foldl buildPathStep
    { result := [], is_first := true, have_leading := false,
      single_element := none, last_trailing := none }
  match st.single_element with
  | some e => String.mk e
  | none => String.mk (st.result ++ st.last_trailing.getD [])

/-! ## Image enumerator -/

/-- The test of `get_image_files` on the lowercased name. -/
def is_supported_name (lower_filename : String) : Bool :=
  g_str_has_suffix lower_filename ".jpg" ||
  g_str_has_suffix lower_filename ".png" ||
  g_str_has_suffix lower_filename ".jpeg" ||
  g_str_has_suffix lower_filename ".bmp" ||
  g_str_has_suffix lower_filename ".svg"

/-- The `while ((filename = g_dir_read_name (dir)) != NULL)` loop of
`get_image_files`; `g_list_append` adds at the end. -/
def get_image_files_loop (env : Env) (directory : String) :
    List String → List String → List String
  | [], image_files => image_files
  | filename :: rest, image_files =>
    let lower_filename := env.strdown filename
    if is_supported_name lower_filename then
      let filepath := g_build_filename [directory, filename]
      get_image_files_loop env directory rest (image_files ++ [filepath])
    else
      get_image_files_loop env directory rest image_files

/-- Translation of `get_image_files`.  A `GList *` is `NULL` exactly when the list is empty,
so the `NULL` returned when the directory cannot be opened is `[]`. -/
def get_image_files (env : Env) (w : World) (directory : String) : List String :=
  match w.readdir directory with
  | none => []
  | some names => get_image_files_loop env directory names []

/-! ## Digest and cache paths -/

/-- Translation of `compute_md5`: the hexadecimal MD5 digest of the bytes of `str`. -/
def compute_md5 (env : Env) (str : String) : String :=
  env.md5 str

/-- Translation of `get_thumbnail_path`: `g_strdup_printf ("%s.png", checksum)` appended to
`cache_dir` through the format `"/%s"`. -/
def get_thumbnail_path (env : Env) (filepath cache_dir : String) : String :=
  let checksum := compute_md5 env filepath
  let thumbnail_filename := checksum ++ ".png"
  cache_dir ++ ("/" ++ thumbnail_filename)

/-! ## Cache directory manager -/

/-- Model of `g_file_test (path, G_FILE_TEST_EXISTS)`. -/
def g_file_test_exists (w : World) (path : String) : Bool :=
  (w.fs path).isSome

/-- Model of `stat (path, &st) == 0` together with the `st_mtime` it reads. -/
def stat (w : World) (path : String) : Option Int :=
  (w.fs path).map FileNode.st_mtime

/-- Translation of `is_thumbnail_up_to_date`. -/
def is_thumbnail_up_to_date (w : World) (image_path thumbnail_path : String) : Bool :=
  match stat w image_path with
  | none => false
  | some image_mtime =>
    match stat w thumbnail_path with
    | none => false
    | some thumb_mtime => decide (thumb_mtime ≥ image_mtime)

/-- Model of `gdk_pixbuf_new_from_file`: the file must be a readable regular file whose
contents the decoder accepts. -/
def gdk_pixbuf_new_from_file (env : Env) (w : World) (path : String) : Option Raster :=
  match w.fs path with
  | none => none
  | some n => if n.isDir then none else env.load n.content

/-- Model of `gdk_pixbuf_new_from_file_at_scale`. -/
def gdk_pixbuf_new_from_file_at_scale (env : Env) (w : World) (path : String)
    (width height : Nat) (preserve_aspect_ratio : Bool) : Option Raster :=
  match w.fs path with
  | none => none
  | some n =>
    if n.isDir then none else env.loadAtScale n.content width height preserve_aspect_ratio

/-- Model of `gdk_pixbuf_save (pixbuf, path, "png", ..)`: on success the file holds the
encoded image and carries the current time as its modification time. -/
def gdk_pixbuf_save (env : Env) (pixbuf : Raster) (path : String) (w : World) :
    Bool × World :=
  let w1 := w.emit (Event.save path)
  match w.saveOutcome path with
  | SaveOutcome.saved =>
    (true, w1.setNode path
      (some { isDir := false, st_mtime := w.clock, content := env.encodePng pixbuf }))
  | SaveOutcome.cannotOpen => (false, w1)
  | SaveOutcome.failedAfterOpen => (false, w1.setNode path none)

/-- Translation of `create_and_cache_thumbnail`. -/
def create_and_cache_thumbnail (env : Env) (image_path thumbnail_path : String)
    (w : World) : Option Raster × World :=
  let w1 := w.emit (Event.decode image_path)
  match gdk_pixbuf_new_from_file_at_scale env w image_path
      THUMBNAIL_SIZE THUMBNAIL_SIZE true with
  | none => (none, w1)
  | some thumbnail =>
    match gdk_pixbuf_save env thumbnail thumbnail_path w1 with
    | (false, w2) => (none, w2)
    | (true, w2) => (some thumbnail, w2)

/-- Translation of `get_thumbnail`. -/
def get_thumbnail (env : Env) (image_path cache_dir : String) (w : World) :
    Option Raster × World :=
  let thumbnail_path := get_thumbnail_path env image_path cache_dir
  if is_thumbnail_up_to_date w image_path thumbnail_path then
    let w1 := w.emit (Event.load thumbnail_path)
    match gdk_pixbuf_new_from_file env w thumbnail_path with
    | some thumbnail => (some thumbnail, w1)
    | none => create_and_cache_thumbnail env image_path thumbnail_path w1
  else
    create_and_cache_thumbnail env image_path thumbnail_path w

/-! ## Remote wallpaper fetcher -/

/-- The search URL of `fetch_random_wallpaper_url`. -/
def api_url : String :=
  "https://wallhaven.cc/api/v1/search?sorting=random&categories=111&purity=100&atleast=1920x1080&resolutions=1920x1080,2560x1440,3840x2160"

/-- Model of `JSON_NODE_HOLDS_OBJECT (root)` followed by `json_node_get_object`; a
missing root is not an object. -/
def json_node_get_object (root : Option JsonNode) : Option (List (String × JsonNode)) :=
  match root with
  | some (JsonNode.object members) => some members
  | _ => none

/-- Model of `json_object_get_array_member`: `NULL` unless the member exists and holds
an array. -/
def json_object_get_array_member (object : List (String × JsonNode)) (name : String) :
    Option (List JsonNode) :=
  match object.lookup name with
  | some (JsonNode.array elements) => some elements
  | _ => none

/-- Model of `json_array_get_length`: `0` for a `NULL` array. -/
def json_array_get_length (array : Option (List JsonNode)) : Nat :=
  match array with
  | none => 0
  | some elements => elements.length

/-- Model of `json_array_get_object_element`: `NULL` unless the element exists and
holds an object. -/
def json_array_get_object_element (array : Option (List JsonNode)) (index : Nat) :
    Option (List (String × JsonNode)) :=
  match array with
  | none => none
  | some elements =>
    match elements.get? index with
    | some (JsonNode.object members) => some members
    | _ => none

/-- Model of `json_object_get_string_member`: `NULL` for a `NULL` object, a missing
member, or a member that is not a string value. -/
def json_object_get_string_member (object : Option (List (String × JsonNode)))
    (name : String) : Option String :=
  match object with
  | none => none
  | some members =>
    match members.lookup name with
    | some (JsonNode.value (JsonValue.string s)) => some s
    | _ => none

/-- The part of `fetch_random_wallpaper_url` after the status check: parse the
body and take the `path` of the first element of `data`. -/
def parse_wallpaper_response (env : Env) (response : Bytes) : Option String :=
  match env.parseJson response with
  | none => none
  | some root =>
    match json_node_get_object root with
    | none => none
    | some root_obj =>
      let data_array := json_object_get_array_member root_obj "data"
      if json_array_get_length data_array == 0 then none
      else
        let wallpaper := json_array_get_object_element data_array 0
        match json_object_get_string_member wallpaper "path" with
        | none => none
        | some path => some path

/-- Translation of `fetch_random_wallpaper_url`. -/
def fetch_random_wallpaper_url (env : Env) (w : World) : Option String × World :=
  let msg := w.http api_url
  let w1 := w.emit (Event.httpGet api_url)
  if msg.status_code != SOUP_STATUS_OK then (none, w1)
  else (parse_wallpaper_response env msg.response_body, w1)

/-! ## Download cache -/

/-- Model of `g_file_set_contents`: GLib writes to a temporary file and renames it over
the target, so the target either holds all of `contents` (success) or is left
as it was (failure). -/
def g_file_set_contents (filename : String) (contents : Bytes) (w : World) :
    Bool × World :=
  let w1 := w.emit (Event.write filename)
  if w.writeOk filename then
    (true, w1.setNode filename
      (some { isDir := false, st_mtime := w.clock, content := contents }))
  else
    (false, w1)

/-- The cache path computed at the start of `download_wallpaper`. -/
def download_cache_path (env : Env) (url cache_dir : String) : String :=
  let checksum := compute_md5 env url
  let wallpaper_filename := checksum ++ ".jpg"
  cache_dir ++ ("/" ++ wallpaper_filename)

/-- Translation of `download_wallpaper`. -/
def download_wallpaper (env : Env) (url cache_dir : String) (w : World) :
    Option String × World :=
  let result := download_cache_path env url cache_dir
  if g_file_test_exists w result then (some result, w)
  else
    let msg := w.http url
    let w1 := w.emit (Event.httpGet url)
    if msg.status_code != SOUP_STATUS_OK then (none, w1)
    else
      match g_file_set_contents result msg.response_body w1 with
      | (false, w2) => (none, w2)
      | (true, w2) => (some result, w2)

/-! ## Background applier -/

/-- The command line `set_wallpaper` formats:
`g_strdup_printf ("feh --bg-scale \"%s\"", filepath)`. -/
def feh_command (filepath : String) : String :=
  "feh --bg-scale \"" ++ filepath ++ "\""

/-- The supported suffixes of the enumerator, as the specification lists them. -/
def SUPPORTED_SUFFIXES : List String := [".jpg", ".jpeg", ".png", ".bmp", ".svg"]

/-- A name is supported when its lowercased form ends in a supported suffix. -/
def SupportedName (env : Env) (name : String) : Prop :=
  ∃ ext ∈ SUPPORTED_SUFFIXES, ext.data <:+ (env.strdown name).data

instance instDecidableSupportedName (env : Env) : DecidablePred (SupportedName env) :=
  fun name => by unfold SupportedName; infer_instance

/-- The response shape `fetch_random_wallpaper_url` accepts: the body parses,
the root is an object whose `data` member is a non-empty array, the first
element of that array is an object, and its `path` member is the string `url`.
The elements after the first are arbitrary. -/
def FirstPathIs (env : Env) (body : Bytes) (url : String) : Prop :=
  ∃ (members wallpaper : List (String × JsonNode)) (rest : List JsonNode),
    env.parseJson body = some (some (JsonNode.object members)) ∧
    members.lookup "data" = some (JsonNode.array (JsonNode.object wallpaper :: rest)) ∧
    wallpaper.lookup "path" = some (JsonNode.value (JsonValue.string url))

/-- The world a successful regeneration leaves behind. -/
def regenerated (env : Env) (image_path thumbnail_path : String) (r : Raster) (w : World) :
    World :=
  ((w.emit (Event.decode image_path)).emit (Event.save thumbnail_path)).setNode thumbnail_path
    (some { isDir := false, st_mtime := w.clock, content := env.encodePng r })

/-- One call of `download_wallpaper` in a session: the URL asked for and the
conditions under which the call runs (the remote side, whether disk writes
succeed, the clock). -/
structure DownloadCall where
  url : String
  http : String → SoupMessage
  writeOk : String → Bool
  clock : Int

/-- The world in which a call of a session runs. -/
def DownloadCall.enter (call : DownloadCall) (w : World) : World :=
  { w with http := call.http, writeOk := call.writeOk, clock := call.clock }

/-- Run a sequence of `download_wallpaper` calls on one cache root.  Returns
the final world and the transfers that completed: the URL and the full
response body of every call that fetched (the file was absent) and returned a
path. -/
def download_session (env : Env) (c : String) :
    List DownloadCall → World → World × List (String × Bytes)
  | [], w => (w, [])
  | call :: rest, w =>
    let w0 := call.enter w
    let fetched := !g_file_test_exists w0 (download_cache_path env call.url c)
    let r := download_wallpaper env call.url c w0
    let s := download_session env c rest r.2
    (s.1, if fetched && r.1.isSome
          then (call.url, (call.http call.url).response_body) :: s.2 else s.2)

/-- Every file at a cache path of root `c` holds the full body of one of the
transfers `done` to that same path. -/
def CacheComplete (env : Env) (c : String) (done : List (String × Bytes)) (w : World) :
    Prop :=
  ∀ u node, w.fs (download_cache_path env u c) = some node →
    ∃ u' body, (u', body) ∈ done ∧
      download_cache_path env u' c = download_cache_path env u c ∧
      node.content = body

/-! ## Shell word splitting

`system` hands the command line to `sh -c`.  The fragment of the POSIX shell
grammar modelled here is the one the command of `set_wallpaper` can fall in
for quote, blank and backslash characters: blanks separate words, double and
single quotes group, a backslash escapes (and joins lines when it precedes a
newline).  Command lines that would trigger expansions or operators are
outside the fragment (`none`), as are unterminated quotes, which the shell
rejects. -/

/-- The double quote character. -/
def DQUOTE : Char := Char.ofNat 34

/-- The single quote character. -/
def SQUOTE : Char := Char.ofNat 39

/-- The backslash character. -/
def BACKSLASH : Char := Char.ofNat 92

/-- The backquote character. -/
def BACKQUOTE : Char := Char.ofNat 96

/-- The newline character. -/
def NEWLINE : Char := Char.ofNat 10

/-- Quoting state of the shell lexer: outside quotes, right after a backslash
outside quotes, inside double quotes, right after a backslash inside double
quotes, inside single quotes. -/
inductive ShQuote where
  | unquoted
  | escaped
  | double
  | doubleEscaped
  | single
deriving DecidableEq, Repr

/-- Blanks that separate words. -/
def isShBlank (ch : Char) : Bool :=
  ch == ' ' || ch == Char.ofNat 9 || ch == NEWLINE

/-- Unquoted characters with a meaning of their own to the shell (operators,
expansions, patterns, comments). -/
def isShSpecial (ch : Char) : Bool :=
  "$;&|<>()*?[]#~=!".data.contains ch || ch == BACKQUOTE ||
    ch == Char.ofNat 123 || ch == Char.ofNat 125

/-- Close the word in progress, if any. -/
def shFlush (cur : Option (List Char)) : List String :=
  match cur with
  | none => []
  | some word => [String.mk word]

/-- Add a character to the word in progress, starting one if needed. -/
def shPush (cur : Option (List Char)) (ch : Char) : Option (List Char) :=
  some (cur.getD [] ++ [ch])

/-- One character of input: the next state, the word in progress and the words
completed by this character; `none` outside the fragment. -/
def sh_step (st : ShQuote) (cur : Option (List Char)) (ch : Char) :
    Option (ShQuote × Option (List Char) × List String) :=
  match st with
  | ShQuote.unquoted =>
    if isShBlank ch then some (ShQuote.unquoted, none, shFlush cur)
    else if ch = DQUOTE then some (ShQuote.double, some (cur.getD []), [])
    else if ch = SQUOTE then some (ShQuote.single, some (cur.getD []), [])
    else if ch = BACKSLASH then some (ShQuote.escaped, cur, [])
    else if isShSpecial ch then none
    else some (ShQuote.unquoted, shPush cur ch, [])
  | ShQuote.escaped =>
    if ch = NEWLINE then some (ShQuote.unquoted, cur, [])
    else some (ShQuote.unquoted, shPush cur ch, [])
  | ShQuote.double =>
    if ch = DQUOTE then some (ShQuote.unquoted, cur, [])
    else if ch = BACKSLASH then some (ShQuote.doubleEscaped, cur, [])
    else if ch = '$' || ch = BACKQUOTE then none
    else some (ShQuote.double, shPush cur ch, [])
  | ShQuote.doubleEscaped =>
    if ch = NEWLINE then some (ShQuote.double, cur, [])
    else if ch = DQUOTE || ch = BACKSLASH || ch = '$' || ch = BACKQUOTE then
      some (ShQuote.double, shPush cur ch, [])
    else some (ShQuote.double, shPush (shPush cur BACKSLASH) ch, [])
  | ShQuote.single =>
    if ch = SQUOTE then some (ShQuote.unquoted, cur, [])
    else some (ShQuote.single, shPush cur ch, [])

/-- The lexer: the words of a command line, or `none` outside the fragment
(in particular when the input ends inside a quote or after a backslash). -/
def sh_words_aux : ShQuote → Option (List Char) → List Char → Option (List String)
  | st, cur, [] => if st = ShQuote.unquoted then some (shFlush cur) else none
  | st, cur, ch :: rest =>
    match sh_step st cur ch with
    | none => none
    | some (st1, cur1, done) => (sh_words_aux st1 cur1 rest).map (fun ws => done ++ ws)

/-- The argument vector the shell builds from a command line. -/
def sh_words (command : String) : Option (List String) :=
  sh_words_aux ShQuote.unquoted none command.data

/-- The lexer run over an initial segment of the input: the state reached, the word in
progress and the words completed so far. -/
def sh_run : ShQuote → Option (List Char) → List Char →
    Option (ShQuote × Option (List Char) × List String)
  | st, cur, [] => some (st, cur, [])
  | st, cur, ch :: rest =>
    match sh_step st cur ch with
    | none => none
    | some (st1, cur1, done) =>
      (sh_run st1 cur1 rest).map (fun r => (r.1, r.2.1, done ++ r.2.2))

/-! ## Concrete scenario data

A small concrete environment on which the functions above can be evaluated.
The general theorems below hold for every `Env` and `World`. -/

/-- Lowercasing of the ASCII letters; every other character is kept. -/
def asciiLower (s : String) : String :=
  String.mk (s.data.map Char.toLower)

/-- MD5 on the strings used in the scenarios (reference digests); every other
string is sent to the all-zero digest. -/
def scenarioMd5 (s : String) : String :=
  if s = "/home/jared/wallpapers/a.jpg" then "dc5bcd847c0b57f3d3d84de1d255673a"
  else if s = "https://ex/x.jpg" then "6ac8b644e9b1d88fa0acd82ec4c19492"
  else "00000000000000000000000000000000"

/-- Toy PNG encoder: a tag byte, the dimensions, the pixels. -/
def scenarioEncodePng (r : Raster) : Bytes :=
  80 :: r.width :: r.height :: r.pixels

/-- Toy decoder: accepts what `scenarioEncodePng` writes and source images
tagged `74`. -/
def scenarioLoad : Bytes → Option Raster
  | 80 :: width :: height :: pixels => some { width := width, height := height, pixels := pixels }
  | 74 :: width :: height :: pixels => some { width := width, height := height, pixels := pixels }
  | _ => none

/-- Toy scaling decoder: an image larger than the requested box is shrunk to
fit it, keeping the ratio of its sides. -/
def scenarioLoadAtScale (content : Bytes) (width height : Nat) (_preserve : Bool) :
    Option Raster :=
  match scenarioLoad content with
  | none => none
  | some r =>
    if r.width ≤ width ∧ r.height ≤ height then some r
    else if r.height * width ≤ r.width * height then
      some { width := width, height := r.height * width / r.width, pixels := r.pixels }
    else
      some { width := r.width * height / r.height, height := height, pixels := r.pixels }

/-- Toy JSON reader: recognises the three response bodies of the scenarios,
`[1]` for `{"data":[{"path":"https://ex/x.jpg"}]}`, `[2]` for `{"data":[]}`
and `[3]` for the empty document. -/
def scenarioParseJson : Bytes → Option (Option JsonNode)
  | [1] => some (some (JsonNode.object
      [("data", JsonNode.array
        [JsonNode.object [("path", JsonNode.value (JsonValue.string "https://ex/x.jpg"))]])]))
  | [2] => some (some (JsonNode.object [("data", JsonNode.array [])]))
  | [3] => some none
  | _ => none

/-- The environment of the scenarios. -/
def scenarioEnv : Env :=
  { md5 := scenarioMd5
    strdown := asciiLower
    home := "/home/jared"
    load := scenarioLoad
    loadAtScale := scenarioLoadAtScale
    encodePng := scenarioEncodePng
    parseJson := scenarioParseJson }

/-- The environment of the scenarios; its toy decoder reads back what its toy
encoder writes. -/
def scenarioPngEnv : PngEnv :=
  { scenarioEnv with
    load_encodePng := fun r =>
      ⟨{ width := r.width, height := r.height, pixels := r.pixels }, rfl⟩ }

/-- A world with an empty file system in which every disk operation succeeds,
every GET is answered `404` with an empty body and every command exits `0`. -/
def emptyWorld : World :=
  { fs := fun _ => none
    readdir := fun _ => none
    clock := 1000
    http := fun _ => { status_code := 404, response_body := [] }
    saveOutcome := fun _ => SaveOutcome.saved
    writeOk := fun _ => true
    mkdirOk := fun _ => true
    system := fun _ => 0
    trace := [] }

/-- The image of the scenarios. -/
def scenarioImage : String := "/home/jared/wallpapers/a.jpg"

/-- The thumbnail cache root of the scenarios. -/
def scenarioCache : String := "/home/jared/.cache/rwall"

/-- The thumbnail path of `scenarioImage`. -/
def scenarioThumb : String :=
  "/home/jared/.cache/rwall/dc5bcd847c0b57f3d3d84de1d255673a.png"

/-- A decodable 1920 x 1080 source image. -/
def scenarioJpeg : Bytes := [74, 1920, 1080, 7]

/-- The directory of the enumeration scenario. -/
def enumWorld : World :=
  { emptyWorld with
    readdir := fun d =>
      if d = WALLPAPER_DIR then some ["a.JPG", "b.png", "c.txt", "d.Jpeg", "e.gif"] else none }

/-- A fresh, loadable thumbnail next to its source image. -/
def hitWorld : World :=
  { emptyWorld with
    fs := fun q =>
      if q = scenarioImage then some { isDir := false, st_mtime := 100, content := scenarioJpeg }
      else if q = scenarioThumb then
        some { isDir := false, st_mtime := 150, content := [80, 128, 72, 7] }
      else none }

/-- A source image whose modification time lies ahead of the clock, with a
thumbnail that is newer still but does not decode. -/
def corruptFutureWorld : World :=
  { emptyWorld with
    clock := 50
    fs := fun q =>
      if q = scenarioImage then some { isDir := false, st_mtime := 100, content := scenarioJpeg }
      else if q = scenarioThumb then some { isDir := false, st_mtime := 200, content := [0] }
      else none }

/-- A source image older than the clock, with a fresh thumbnail that does not
decode. -/
def corruptWorld : World :=
  { emptyWorld with
    fs := fun q =>
      if q = scenarioImage then some { isDir := false, st_mtime := 100, content := scenarioJpeg }
      else if q = scenarioThumb then some { isDir := false, st_mtime := 200, content := [0] }
      else none }

/-- The download cache root of the scenarios. -/
def scenarioBackgrounds : String := "/home/jared/.cache/rwall/backgrounds"

/-- The URL of the scenarios. -/
def scenarioUrl : String := "https://ex/x.jpg"

/-- The download cache path of `scenarioUrl`. -/
def scenarioLocal : String :=
  "/home/jared/.cache/rwall/backgrounds/6ac8b644e9b1d88fa0acd82ec4c19492.jpg"

/-- The remote side of the happy path: the search answers `200` with one
wallpaper record, the image URL answers `200` with the bytes `[9, 9, 9]`. -/
def happyWorld : World :=
  { emptyWorld with
    http := fun u =>
      if u = api_url then { status_code := 200, response_body := [1] }
      else if u = scenarioUrl then { status_code := 200, response_body := [9, 9, 9] }
      else { status_code := 404, response_body := [] } }

/-- A remote side that answers every request `201 Created`, the search with a
well-formed wallpaper record and the image URL with image bytes. -/
def createdWorld : World :=
  { emptyWorld with
    http := fun u =>
      if u = api_url then { status_code := 201, response_body := [1] }
      else { status_code := 201, response_body := [9, 9, 9] } }

/-- A remote side whose search answers `203 Non-Authoritative Information`
with a well-formed wallpaper record. -/
def nonAuthoritativeWorld : World :=
  { emptyWorld with
    http := fun u =>
      if u = api_url then { status_code := 203, response_body := [1] }
      else { status_code := 404, response_body := [] } }

/-- A remote side whose search answers `200` with `{"data":[]}`. -/
def noDataWorld : World :=
  { emptyWorld with
    http := fun u =>
      if u = api_url then { status_code := 200, response_body := [2] }
      else { status_code := 200, response_body := [9, 9, 9] } }

/-- A session of three calls for `scenarioUrl`: the remote side fails, then
the disk write fails, then both succeed. -/
def scenarioCalls : List DownloadCall :=
  [ { url := scenarioUrl, http := emptyWorld.http, writeOk := fun _ => true, clock := 1 },
    { url := scenarioUrl, http := happyWorld.http, writeOk := fun _ => false, clock := 2 },
    { url := scenarioUrl, http := happyWorld.http, writeOk := fun _ => true, clock := 3 } ]

/-- The world after the happy-path download, with the remote side now
answering every request `404`. -/
def offlineWorld : World :=
  { (download_wallpaper scenarioEnv scenarioUrl scenarioBackgrounds happyWorld).2 with
    http := emptyWorld.http }

/-- A file name holding a quote, a blank and a quote, as a directory entry of
the wallpaper directory. -/
def quotedName : String := "a\" \"b.jpg"

/-! ## Lemmas on the GLib helpers -/

theorem g_str_has_suffix_iff (str suffix : String) :
    g_str_has_suffix str suffix = true ↔ suffix.data <:+ str.data := by
  unfold g_str_has_suffix
  by_cases h : str.data.length < suffix.data.length
  · simp only [h, if_true]
    constructor
    · intro h'; cases h'
    · intro hs
      have := hs.length_le
      omega
  · simp only [h, if_false, beq_iff_eq]
    rw [List.suffix_iff_eq_drop]
    exact eq_comm

theorem is_supported_name_iff (env : Env) (name : String) :
    is_supported_name (env.strdown name) = true ↔ SupportedName env name := by
  unfold is_supported_name SupportedName SUPPORTED_SUFFIXES
  simp only [Bool.or_eq_true, g_str_has_suffix_iff, List.mem_cons, List.mem_singleton,
    List.mem_nil_iff, or_false, exists_eq_or_imp, exists_eq_left]
  tauto

theorem dropTrailingSep_eq_self (cs : List Char) (h : cs.getLast? ≠ some '/') :
    dropTrailingSep cs = cs := by
  unfold dropTrailingSep
  cases hr : cs.reverse with
  | nil => simp at hr; simp [hr]
  | cons x xs =>
    have hx : cs.getLast? = some x := by
      rw [List.getLast?_eq_head?_reverse, hr]; rfl
    have hne : x ≠ '/' := by
      intro hx'; apply h; rw [hx, hx']
    rw [List.dropWhile_cons_of_neg (by simpa using hne), ← hr, List.reverse_reverse]

theorem take_append_dropWhile (p : Char → Bool) (cs : List Char) :
    cs.take (cs.length - (cs.dropWhile p).length) ++ cs.dropWhile p = cs := by
  induction cs with
  | nil => simp
  | cons a l ih =>
    by_cases ha : p a = true
    · have hle : (l.dropWhile p).length ≤ l.length := (List.dropWhile_suffix p).length_le
      rw [List.dropWhile_cons]; simp only [ha, if_true]
      have : (a :: l).length - (l.dropWhile p).length
          = (l.length - (l.dropWhile p).length) + 1 := by
        simp only [List.length_cons]; omega
      rw [this, List.take_succ_cons, List.cons_append, ih]
    · rw [List.dropWhile_cons]; simp [ha]

theorem dropWhile_sep_getLast (cs : List Char) (hne : cs ≠ [])
    (h : cs.getLast? ≠ some '/') :
    cs.dropWhile (fun ch => ch == '/') ≠ [] ∧
      (cs.dropWhile (fun ch => ch == '/')).getLast? ≠ some '/' := by
  induction cs with
  | nil => exact absurd rfl hne
  | cons a l ih =>
    by_cases ha : (a == '/') = true
    · rw [List.dropWhile_cons]; simp only [ha, if_true]
      cases l with
      | nil =>
        exfalso; apply h
        have : a = '/' := by simpa using ha
        simp [this]
      | cons b t =>
        apply ih (by simp)
        simpa [List.getLast?_cons_cons] using h
    · rw [List.dropWhile_cons]; simp only [ha]
      exact ⟨by simp, h⟩

/-- Joining a directory that does not end in a separator with a plain entry
name puts exactly one separator between them. -/
theorem g_build_filename_pair (directory name : String)
    (hd : directory.data ≠ []) (hdl : directory.data.getLast? ≠ some '/')
    (hn : name.data ≠ []) (hns : '/' ∉ name.data) :
    g_build_filename [directory, name] = directory ++ "/" ++ name := by
  obtain ⟨hs1, hs2⟩ := dropWhile_sep_getLast directory.data hd hdl
  have hb1 := dropTrailingSep_eq_self _ hs2
  have hn1 : name.data.dropWhile (fun ch => ch == '/') = name.data := by
    cases hnd : name.data with
    | nil => rfl
    | cons a l =>
      have : a ≠ '/' := by
        intro ha; apply hns; rw [hnd, ha]; simp
      rw [List.dropWhile_cons]; simp [this]
  have hnl : name.data.getLast? ≠ some '/' := by
    intro hl
    exact hns (List.mem_of_getLast?_eq_some hl)
  have hb2 := dropTrailingSep_eq_self _ hnl
  have ht := take_append_dropWhile (fun ch => ch == '/') directory.data
  apply String.ext
  simp only [g_build_filename, List.map, List.foldl, buildPathStep, hb1, hn1, hb2,
    List.isEmpty_iff, hd, hn, hs1, if_false, if_true, List.drop_length, List.nil_append,
    Option.getD, List.append_nil, String.data_append]
  simp only [String.data_append, List.append_assoc]
  have e := congrArg (fun l => l ++ ("/".data ++ name.data)) ht
  simpa [List.append_assoc] using e

theorem get_image_files_loop_eq (env : Env) (directory : String) (names acc : List String) :
    get_image_files_loop env directory names acc =
      acc ++ (names.filter (fun n => decide (SupportedName env n))).map
        (fun n => g_build_filename [directory, n]) := by
  induction names generalizing acc with
  | nil => simp [get_image_files_loop]
  | cons n rest ih =>
    unfold get_image_files_loop
    by_cases h : is_supported_name (env.strdown n) = true
    · have h' : SupportedName env n := (is_supported_name_iff env n).1 h
      simp [h, h', ih]
    · have h' : ¬ SupportedName env n := fun hs => h ((is_supported_name_iff env n).2 hs)
      simp [h, h', ih]

/-! ## Image enumerator -/

/-- C1: when the directory can be opened and enumerates `names`,
`get_image_files` returns, in enumeration order, the joined path of exactly
those names whose lowercased form ends in `.jpg`, `.jpeg`, `.png`, `.bmp` or
`.svg`; for a directory that does not end in a separator and plain entry names
the joined path is `directory/name`. -/
theorem get_image_files_spec (env : Env) (w : World) (directory : String)
    (names : List String) (hopen : w.readdir directory = some names) :
    get_image_files env w directory =
        (names.filter (fun n => decide (SupportedName env n))).map
          (fun n => g_build_filename [directory, n]) ∧
      (directory.data ≠ [] → directory.data.getLast? ≠ some '/' →
        (∀ n ∈ names, n.data ≠ [] ∧ '/' ∉ n.data) →
        get_image_files env w directory =
          (names.filter (fun n => decide (SupportedName env n))).map
            (fun n => directory ++ "/" ++ n)) := by
  have h1 : get_image_files env w directory =
      (names.filter (fun n => decide (SupportedName env n))).map
        (fun n => g_build_filename [directory, n]) := by
    unfold get_image_files
    rw [hopen]
    simp [get_image_files_loop_eq]
  refine ⟨h1, ?_⟩
  intro hd hdl hnames
  rw [h1]
  apply List.map_congr_left
  intro n hn
  have hmem : n ∈ names := (List.mem_filter.1 hn).1
  exact g_build_filename_pair directory n hd hdl (hnames n hmem).1 (hnames n hmem).2

/-- Witness for C1: the directory of the specification's enumeration scenario
yields exactly `a.JPG`, `b.png`, `d.Jpeg`, in that order, each as
`directory/name`. -/
theorem get_image_files_spec_witness :
    enumWorld.readdir WALLPAPER_DIR = some ["a.JPG", "b.png", "c.txt", "d.Jpeg", "e.gif"] ∧
      get_image_files scenarioEnv enumWorld WALLPAPER_DIR =
        ["/home/jared/wallpapers/a.JPG", "/home/jared/wallpapers/b.png",
          "/home/jared/wallpapers/d.Jpeg"] ∧
      get_image_files scenarioEnv enumWorld WALLPAPER_DIR =
        (["a.JPG", "b.png", "c.txt", "d.Jpeg", "e.gif"].filter
          (fun n => decide (SupportedName scenarioEnv n))).map
          (fun n => WALLPAPER_DIR ++ "/" ++ n) :=
  have h := get_image_files_spec scenarioEnv enumWorld WALLPAPER_DIR
    ["a.JPG", "b.png", "c.txt", "d.Jpeg", "e.gif"] (by decide)
  ⟨by decide, h.1.trans (by decide), h.2 (by decide) (by decide) (by decide)⟩

/-! ## Lemmas on the world -/

@[simp] theorem emit_fs (w : World) (e : Event) : (w.emit e).fs = w.fs := rfl
@[simp] theorem emit_clock (w : World) (e : Event) : (w.emit e).clock = w.clock := rfl
@[simp] theorem emit_http (w : World) (e : Event) : (w.emit e).http = w.http := rfl
@[simp] theorem emit_saveOutcome (w : World) (e : Event) :
    (w.emit e).saveOutcome = w.saveOutcome := rfl
@[simp] theorem emit_writeOk (w : World) (e : Event) : (w.emit e).writeOk = w.writeOk := rfl
@[simp] theorem emit_trace (w : World) (e : Event) : (w.emit e).trace = w.trace ++ [e] := rfl
@[simp] theorem setNode_trace (w : World) (path : String) (n : Option FileNode) :
    (w.setNode path n).trace = w.trace := rfl
@[simp] theorem setNode_clock (w : World) (path : String) (n : Option FileNode) :
    (w.setNode path n).clock = w.clock := rfl
@[simp] theorem setNode_fs_same (w : World) (path : String) (n : Option FileNode) :
    (w.setNode path n).fs path = n := by
  simp [World.setNode]

theorem setNode_fs_other (w : World) (path q : String) (n : Option FileNode)
    (h : q ≠ path) : (w.setNode path n).fs q = w.fs q := by
  simp [World.setNode, h]

@[simp] theorem stat_emit (w : World) (e : Event) (path : String) :
    stat (w.emit e) path = stat w path := rfl

@[simp] theorem new_from_file_emit (env : Env) (w : World) (e : Event) (path : String) :
    gdk_pixbuf_new_from_file env (w.emit e) path = gdk_pixbuf_new_from_file env w path := rfl

@[simp] theorem new_from_file_at_scale_emit (env : Env) (w : World) (e : Event)
    (path : String) (a b : Nat) (k : Bool) :
    gdk_pixbuf_new_from_file_at_scale env (w.emit e) path a b k =
      gdk_pixbuf_new_from_file_at_scale env w path a b k := rfl

theorem create_and_cache_thumbnail_ok (env : Env) (p t : String) (w : World) (r : Raster)
    (hdec : gdk_pixbuf_new_from_file_at_scale env w p THUMBNAIL_SIZE THUMBNAIL_SIZE true
      = some r)
    (hsave : w.saveOutcome t = SaveOutcome.saved) :
    create_and_cache_thumbnail env p t w = (some r, regenerated env p t r w) := by
  simp [create_and_cache_thumbnail, hdec, gdk_pixbuf_save, hsave, regenerated]

/-- After a successful regeneration the thumbnail carries the clock as its
modification time, and the source is either the thumbnail itself or untouched. -/
theorem stat_regenerated (env : Env) (p t : String) (r : Raster) (w : World) :
    stat (regenerated env p t r w) t = some w.clock ∧
      (p ≠ t → stat (regenerated env p t r w) p = stat w p) := by
  constructor
  · simp [stat, regenerated]
  · intro hne
    simp [stat, regenerated, setNode_fs_other _ _ _ _ hne]

theorem is_thumbnail_up_to_date_iff (w : World) (p t : String) :
    is_thumbnail_up_to_date w p t = true ↔
      ∃ mi mt, stat w p = some mi ∧ stat w t = some mt ∧ mt ≥ mi := by
  unfold is_thumbnail_up_to_date
  cases hp : stat w p with
  | none => simp
  | some mi =>
    cases ht : stat w t with
    | none => simp
    | some mt => simp

/-! ## Thumbnail cache -/

/-- C2: when the image and its thumbnail can both be stat'ed, the thumbnail is
at least as new as the image and the cached PNG loads, `get_thumbnail` returns
the loaded raster, its only action is that load (no decode, no save), and the
file system, in particular the thumbnail's modification time, is unchanged. -/
theorem get_thumbnail_cache_hit (env : Env) (w : World) (p c : String) (mi mt : Int)
    (r : Raster) (hp : stat w p = some mi)
    (ht : stat w (get_thumbnail_path env p c) = some mt) (hfresh : mt ≥ mi)
    (hload : gdk_pixbuf_new_from_file env w (get_thumbnail_path env p c) = some r) :
    (get_thumbnail env p c w).1 = some r ∧
      (get_thumbnail env p c w).2.fs = w.fs ∧
      stat (get_thumbnail env p c w).2 (get_thumbnail_path env p c) = some mt ∧
      (get_thumbnail env p c w).2.trace =
        w.trace ++ [Event.load (get_thumbnail_path env p c)] := by
  have hup : is_thumbnail_up_to_date w p (get_thumbnail_path env p c) = true :=
    (is_thumbnail_up_to_date_iff w p _).2 ⟨mi, mt, hp, ht, hfresh⟩
  have hget : get_thumbnail env p c w =
      (some r, w.emit (Event.load (get_thumbnail_path env p c))) := by
    simp [get_thumbnail, hup, hload]
  rw [hget]
  exact ⟨rfl, rfl, ht, rfl⟩

/-- Witness for C2: a thumbnail of time 150 next to an image of time 100. -/
theorem get_thumbnail_cache_hit_witness :
    stat hitWorld scenarioImage = some 100 ∧
      (get_thumbnail scenarioEnv scenarioImage scenarioCache hitWorld).1 =
        some { width := 128, height := 72, pixels := [7] } ∧
      (get_thumbnail scenarioEnv scenarioImage scenarioCache hitWorld).2.trace =
        [Event.load scenarioThumb] :=
  have h := get_thumbnail_cache_hit scenarioEnv hitWorld scenarioImage scenarioCache 100 150
    { width := 128, height := 72, pixels := [7] } (by decide) (by decide) (by decide)
    (by decide)
  ⟨by decide, h.1, h.2.2.2.trans (by decide)⟩

/-- C10 (amended): when the thumbnail is at least as new as the image but does
not load, `get_thumbnail` returns exactly what regeneration returns; when the
image decodes and the save succeeds the call returns the decoded raster and
the thumbnail file is overwritten with its PNG; and, provided the image is not
dated after the clock, the call that follows is a cache hit: it returns the
raster loaded from that file and its only action is the load. -/
theorem get_thumbnail_self_heal (env : PngEnv) (w : World) (p c : String) (mi mt : Int)
    (hp : stat w p = some mi)
    (ht : stat w (get_thumbnail_path env.toEnv p c) = some mt)
    (hfresh : mt ≥ mi)
    (hcorrupt :
      gdk_pixbuf_new_from_file env.toEnv w (get_thumbnail_path env.toEnv p c) = none) :
    get_thumbnail env.toEnv p c w =
        create_and_cache_thumbnail env.toEnv p (get_thumbnail_path env.toEnv p c)
          (w.emit (Event.load (get_thumbnail_path env.toEnv p c))) ∧
      ∀ r,
        gdk_pixbuf_new_from_file_at_scale env.toEnv w p THUMBNAIL_SIZE THUMBNAIL_SIZE true
          = some r →
        w.saveOutcome (get_thumbnail_path env.toEnv p c) = SaveOutcome.saved →
        (get_thumbnail env.toEnv p c w).1 = some r ∧
          (get_thumbnail env.toEnv p c w).2.fs (get_thumbnail_path env.toEnv p c) =
            some { isDir := false, st_mtime := w.clock, content := env.encodePng r } ∧
          (mi ≤ w.clock →
            ∃ r',
              gdk_pixbuf_new_from_file env.toEnv (get_thumbnail env.toEnv p c w).2
                (get_thumbnail_path env.toEnv p c) = some r' ∧
              get_thumbnail env.toEnv p c (get_thumbnail env.toEnv p c w).2 =
                (some r', (get_thumbnail env.toEnv p c w).2.emit
                  (Event.load (get_thumbnail_path env.toEnv p c)))) := by
  have hup : is_thumbnail_up_to_date w p (get_thumbnail_path env.toEnv p c) = true :=
    (is_thumbnail_up_to_date_iff w p _).2 ⟨mi, mt, hp, ht, hfresh⟩
  have hget : get_thumbnail env.toEnv p c w =
      create_and_cache_thumbnail env.toEnv p (get_thumbnail_path env.toEnv p c)
        (w.emit (Event.load (get_thumbnail_path env.toEnv p c))) := by
    simp [get_thumbnail, hup, hcorrupt]
  refine ⟨hget, ?_⟩
  intro r hdec hsave
  have hreg := create_and_cache_thumbnail_ok env.toEnv p (get_thumbnail_path env.toEnv p c)
    (w.emit (Event.load (get_thumbnail_path env.toEnv p c))) r (by simpa using hdec)
    (by simpa using hsave)
  rw [hget, hreg]
  refine ⟨rfl, by simp [regenerated], ?_⟩
  intro hle
  obtain ⟨r', hrt⟩ := env.load_encodePng r
  obtain ⟨hT, hP⟩ := stat_regenerated env.toEnv p (get_thumbnail_path env.toEnv p c) r
    (w.emit (Event.load (get_thumbnail_path env.toEnv p c)))
  have hup2 : is_thumbnail_up_to_date
      (regenerated env.toEnv p (get_thumbnail_path env.toEnv p c) r
        (w.emit (Event.load (get_thumbnail_path env.toEnv p c)))) p
      (get_thumbnail_path env.toEnv p c) = true := by
    rw [is_thumbnail_up_to_date_iff]
    by_cases hpt : p = get_thumbnail_path env.toEnv p c
    · refine ⟨w.clock, w.clock, ?_, hT, le_refl _⟩
      rw [← hpt] at hT ⊢
      exact hT
    · refine ⟨mi, w.clock, ?_, hT, hle⟩
      rw [hP hpt]
      exact hp
  have hload2 : gdk_pixbuf_new_from_file env.toEnv
      (regenerated env.toEnv p (get_thumbnail_path env.toEnv p c) r
        (w.emit (Event.load (get_thumbnail_path env.toEnv p c))))
      (get_thumbnail_path env.toEnv p c) = some r' := by
    simp [gdk_pixbuf_new_from_file, regenerated, hrt]
  refine ⟨r', hload2, ?_⟩
  simp [get_thumbnail, hup2, hload2]

/-- Witness for C10 (amended): a corrupt thumbnail of time 200 next to an
image of time 100, healed at clock 1000; the call that follows loads the file
just written. -/
theorem get_thumbnail_self_heal_witness :
    stat corruptWorld scenarioImage = some 100 ∧
      stat corruptWorld
        (get_thumbnail_path scenarioPngEnv.toEnv scenarioImage scenarioCache) = some 200 ∧
      gdk_pixbuf_new_from_file scenarioPngEnv.toEnv corruptWorld
        (get_thumbnail_path scenarioPngEnv.toEnv scenarioImage scenarioCache) = none ∧
      (∃ r',
        gdk_pixbuf_new_from_file scenarioPngEnv.toEnv
            (get_thumbnail scenarioPngEnv.toEnv scenarioImage scenarioCache corruptWorld).2
            (get_thumbnail_path scenarioPngEnv.toEnv scenarioImage scenarioCache) =
          some r' ∧
        get_thumbnail scenarioPngEnv.toEnv scenarioImage scenarioCache
            (get_thumbnail scenarioPngEnv.toEnv scenarioImage scenarioCache corruptWorld).2 =
          (some r',
            (get_thumbnail scenarioPngEnv.toEnv scenarioImage scenarioCache
              corruptWorld).2.emit
              (Event.load
                (get_thumbnail_path scenarioPngEnv.toEnv scenarioImage scenarioCache)))) ∧
      (get_thumbnail scenarioEnv scenarioImage scenarioCache
        (get_thumbnail scenarioEnv scenarioImage scenarioCache corruptWorld).2).1 =
        some { width := 128, height := 72, pixels := [7] } ∧
      (get_thumbnail scenarioEnv scenarioImage scenarioCache
        (get_thumbnail scenarioEnv scenarioImage scenarioCache corruptWorld).2).2.trace =
        [Event.load scenarioThumb, Event.decode scenarioImage, Event.save scenarioThumb,
          Event.load scenarioThumb] :=
  have h := get_thumbnail_self_heal scenarioPngEnv corruptWorld scenarioImage scenarioCache
    100 200 (by decide) (by decide) (by decide) (by decide)
  ⟨by decide, by decide, by decide,
    (h.2 { width := 128, height := 72, pixels := [7] } (by decide) (by decide)).2.2
      (by decide),
    by decide, by decide⟩

/-- Counterexample to C10 as stated: the image is dated 100, its corrupt
thumbnail 200, and the clock reads 50.  The first call regenerates and
succeeds, yet the call that follows decodes and saves again instead of loading
the file just written. -/
theorem future_source_defeats_self_heal :
    stat corruptFutureWorld scenarioImage = some 100 ∧
      stat corruptFutureWorld scenarioThumb = some 200 ∧
      gdk_pixbuf_new_from_file scenarioEnv corruptFutureWorld scenarioThumb = none ∧
      (get_thumbnail scenarioEnv scenarioImage scenarioCache corruptFutureWorld).1 =
        some { width := 128, height := 72, pixels := [7] } ∧
      (get_thumbnail scenarioEnv scenarioImage scenarioCache
        (get_thumbnail scenarioEnv scenarioImage scenarioCache corruptFutureWorld).2).2.trace =
        [Event.load scenarioThumb, Event.decode scenarioImage, Event.save scenarioThumb,
          Event.decode scenarioImage, Event.save scenarioThumb] := by
  decide

/-! ## Remote wallpaper fetcher -/

theorem parse_wallpaper_response_of_shape (env : Env) (body : Bytes) (url : String)
    (h : FirstPathIs env body url) : parse_wallpaper_response env body = some url := by
  obtain ⟨members, wallpaper, rest, h1, h2, h3⟩ := h
  simp [parse_wallpaper_response, h1, json_node_get_object, json_object_get_array_member,
    h2, json_array_get_length, json_array_get_object_element, json_object_get_string_member,
    h3]

theorem shape_of_parse_wallpaper_response (env : Env) (body : Bytes) (url : String)
    (h : parse_wallpaper_response env body = some url) : FirstPathIs env body url := by
  unfold parse_wallpaper_response at h
  cases hparse : env.parseJson body with
  | none => simp [hparse] at h
  | some root =>
    cases hroot : json_node_get_object root with
    | none => simp [hparse, hroot] at h
    | some members =>
      have hr : root = some (JsonNode.object members) := by
        unfold json_node_get_object at hroot
        split at hroot
        · cases hroot; rfl
        · cases hroot
      subst hr
      cases hdata : json_object_get_array_member members "data" with
      | none => simp [hparse, hroot, hdata, json_array_get_length] at h
      | some elements =>
        have hd : members.lookup "data" = some (JsonNode.array elements) := by
          unfold json_object_get_array_member at hdata
          split at hdata
          · cases hdata; assumption
          · cases hdata
        cases elements with
        | nil => simp [hparse, hroot, hdata, json_array_get_length] at h
        | cons first rest =>
          cases hobj : json_array_get_object_element (some (first :: rest)) 0 with
          | none =>
            simp [hparse, hroot, hdata, json_array_get_length, hobj,
              json_object_get_string_member] at h
          | some wallpaper =>
            have hf : first = JsonNode.object wallpaper := by
              unfold json_array_get_object_element at hobj
              simp only [List.get?] at hobj
              split at hobj
              · rename_i m heq
                cases hobj; cases heq; rfl
              · cases hobj
            subst hf
            cases hpath : json_object_get_string_member (some wallpaper) "path" with
            | none =>
              simp [hparse, hroot, hdata, json_array_get_length, hobj, hpath] at h
            | some s =>
              have hs : wallpaper.lookup "path" = some (JsonNode.value (JsonValue.string s)) := by
                unfold json_object_get_string_member at hpath
                simp only at hpath
                split at hpath
                · cases hpath; assumption
                · cases hpath
              simp [hparse, hroot, hdata, json_array_get_length, hobj, hpath] at h
              subst h
              exact ⟨members, wallpaper, rest, hparse, hd, hs⟩

theorem parse_wallpaper_response_iff (env : Env) (body : Bytes) (url : String) :
    parse_wallpaper_response env body = some url ↔ FirstPathIs env body url :=
  ⟨shape_of_parse_wallpaper_response env body url,
    parse_wallpaper_response_of_shape env body url⟩

/-- C6 (amended): for a response whose status is `200`, the only status the
check of `fetch_random_wallpaper_url` accepts, the result of
`fetch_random_wallpaper_url` is `url` exactly when the body parses as JSON
whose root is an object with a `data` array of non-zero length whose first
element is an object with the string field `path` equal to `url` (whatever the
later elements are); for every other body the result is `NULL`. -/
theorem fetch_random_wallpaper_url_shape (env : Env) (w : World) (url : String)
    (hok : (w.http api_url).status_code = SOUP_STATUS_OK) :
    ((fetch_random_wallpaper_url env w).1 = some url ↔
        FirstPathIs env (w.http api_url).response_body url) ∧
      ((fetch_random_wallpaper_url env w).1 = none ↔
        ∀ u, ¬ FirstPathIs env (w.http api_url).response_body u) := by
  have hres : (fetch_random_wallpaper_url env w).1 =
      parse_wallpaper_response env (w.http api_url).response_body := by
    simp [fetch_random_wallpaper_url, hok]
  rw [hres]
  refine ⟨parse_wallpaper_response_iff env _ url, ?_⟩
  constructor
  · intro hnone u hu
    rw [(parse_wallpaper_response_iff env _ u).2 hu] at hnone
    cases hnone
  · intro hall
    cases hp : parse_wallpaper_response env (w.http api_url).response_body with
    | none => rfl
    | some u => exact absurd ((parse_wallpaper_response_iff env _ u).1 hp) (hall u)

/-- Witness for C6 (amended): the happy-path search response yields its first `path`;
a response whose `data` array is empty yields `NULL`. -/
theorem fetch_random_wallpaper_url_shape_witness :
    (happyWorld.http api_url).status_code = SOUP_STATUS_OK ∧
      ((fetch_random_wallpaper_url scenarioEnv happyWorld).1 = some scenarioUrl ↔
        FirstPathIs scenarioEnv (happyWorld.http api_url).response_body scenarioUrl) ∧
      (fetch_random_wallpaper_url scenarioEnv happyWorld).1 = some "https://ex/x.jpg" ∧
      (fetch_random_wallpaper_url scenarioEnv noDataWorld).1 = none :=
  ⟨by decide,
    (fetch_random_wallpaper_url_shape scenarioEnv happyWorld scenarioUrl (by decide)).1,
    by decide, by decide⟩

/-- Counterexample to C6 as stated: the search is answered `203`, a successful
(2xx) status, with a body that parses as an object whose `data` array has one
element, an object with the string field `path`; the result is `NULL`, not
that `path`. -/
theorem well_shaped_203_yields_null :
    (nonAuthoritativeWorld.http api_url).status_code = 203 ∧
      FirstPathIs scenarioEnv (nonAuthoritativeWorld.http api_url).response_body
        "https://ex/x.jpg" ∧
      parse_wallpaper_response scenarioEnv
        (nonAuthoritativeWorld.http api_url).response_body = some "https://ex/x.jpg" ∧
      (fetch_random_wallpaper_url scenarioEnv nonAuthoritativeWorld).1 = none :=
  ⟨by decide,
    ⟨[("data", JsonNode.array
        [JsonNode.object [("path", JsonNode.value (JsonValue.string "https://ex/x.jpg"))]])],
      [("path", JsonNode.value (JsonValue.string "https://ex/x.jpg"))], [], rfl, rfl, rfl⟩,
    by decide, by decide⟩

/-! ## Status check -/

/-- C5 (amended): the status accepted by the GET of
`fetch_random_wallpaper_url` and by the GET of `download_wallpaper` is `200`
alone.  Any other status makes the operation return `NULL` right after the
request; with status `200` the fetch goes on to parse the body and the
download goes on to write the body to the cache path. -/
theorem status_ok_gate (env : Env) (w : World) (url c : String) :
    ((w.http api_url).status_code ≠ SOUP_STATUS_OK →
        fetch_random_wallpaper_url env w = (none, w.emit (Event.httpGet api_url))) ∧
      ((w.http api_url).status_code = SOUP_STATUS_OK →
        (fetch_random_wallpaper_url env w).1 =
          parse_wallpaper_response env (w.http api_url).response_body) ∧
      (g_file_test_exists w (download_cache_path env url c) = false →
        (w.http url).status_code ≠ SOUP_STATUS_OK →
        download_wallpaper env url c w = (none, w.emit (Event.httpGet url))) ∧
      (g_file_test_exists w (download_cache_path env url c) = false →
        (w.http url).status_code = SOUP_STATUS_OK →
        (download_wallpaper env url c w).2 =
            (g_file_set_contents (download_cache_path env url c) (w.http url).response_body
              (w.emit (Event.httpGet url))).2 ∧
          (download_wallpaper env url c w).1 =
            (if (g_file_set_contents (download_cache_path env url c)
                  (w.http url).response_body (w.emit (Event.httpGet url))).1
              then some (download_cache_path env url c) else none)) := by
  refine ⟨?_, ?_, ?_, ?_⟩
  · intro h
    simp [fetch_random_wallpaper_url, h]
  · intro h
    simp [fetch_random_wallpaper_url, h]
  · intro hex h
    simp [download_wallpaper, hex, h]
  · intro hex h
    unfold download_wallpaper
    simp only [hex, h, bne_self_eq_false, Bool.false_eq_true, if_false]
    cases hw : (g_file_set_contents (download_cache_path env url c)
        (w.http url).response_body (w.emit (Event.httpGet url))) with
    | mk ok w2 => cases ok <;> simp

/-- Witness for C5 (amended): on the happy path both requests are answered
`200`, the search result is parsed and the image bytes are written; answered
`404`, both operations return `NULL` right after their request. -/
theorem status_ok_gate_witness :
    (happyWorld.http api_url).status_code = SOUP_STATUS_OK ∧
      (fetch_random_wallpaper_url scenarioEnv happyWorld).1 =
        parse_wallpaper_response scenarioEnv (happyWorld.http api_url).response_body ∧
      (download_wallpaper scenarioEnv scenarioUrl scenarioBackgrounds happyWorld).2.fs
        scenarioLocal = some { isDir := false, st_mtime := 1000, content := [9, 9, 9] } ∧
      fetch_random_wallpaper_url scenarioEnv emptyWorld =
        (none, emptyWorld.emit (Event.httpGet api_url)) ∧
      download_wallpaper scenarioEnv scenarioUrl scenarioBackgrounds emptyWorld =
        (none, emptyWorld.emit (Event.httpGet scenarioUrl)) :=
  have h := status_ok_gate scenarioEnv happyWorld scenarioUrl scenarioBackgrounds
  have h0 := status_ok_gate scenarioEnv emptyWorld scenarioUrl scenarioBackgrounds
  ⟨by decide, h.2.1 (by decide),
    (congrArg (fun x : World => x.fs scenarioLocal)
      (h.2.2.2 (by decide) (by decide)).1).trans (by decide),
    h0.1 (by decide), h0.2.2.1 (by decide) (by decide)⟩

/-- Counterexample to C5 as stated: the status `201` lies in `200..299`, the
search body is a well-formed wallpaper record, and still the fetch returns
`NULL`; the download answered `201` returns `NULL` after its request without
writing anything. -/
theorem status_201_rejected :
    (createdWorld.http api_url).status_code = 201 ∧
      parse_wallpaper_response scenarioEnv (createdWorld.http api_url).response_body =
        some scenarioUrl ∧
      (fetch_random_wallpaper_url scenarioEnv createdWorld).1 = none ∧
      (createdWorld.http scenarioUrl).status_code = 201 ∧
      (download_wallpaper scenarioEnv scenarioUrl scenarioBackgrounds createdWorld).1 = none ∧
      (download_wallpaper scenarioEnv scenarioUrl scenarioBackgrounds createdWorld).2.trace =
        [Event.httpGet scenarioUrl] ∧
      (download_wallpaper scenarioEnv scenarioUrl scenarioBackgrounds createdWorld).2.fs
        scenarioLocal = none := by
  decide

/-! ## Download cache -/

theorem g_file_test_exists_congr (w w2 : World) (path : String) (h : w2.fs = w.fs) :
    g_file_test_exists w2 path = g_file_test_exists w path := by
  simp [g_file_test_exists, h]

theorem download_wallpaper_hit (env : Env) (url c : String) (w : World)
    (h : g_file_test_exists w (download_cache_path env url c) = true) :
    download_wallpaper env url c w = (some (download_cache_path env url c), w) := by
  simp [download_wallpaper, h]

/-- The four ways a call of `download_wallpaper` can go. -/
theorem download_wallpaper_cases (env : Env) (url c : String) (w : World) :
    (g_file_test_exists w (download_cache_path env url c) = true ∧
        download_wallpaper env url c w = (some (download_cache_path env url c), w)) ∨
      (g_file_test_exists w (download_cache_path env url c) = false ∧
        (w.http url).status_code ≠ SOUP_STATUS_OK ∧
        download_wallpaper env url c w = (none, w.emit (Event.httpGet url))) ∨
      (g_file_test_exists w (download_cache_path env url c) = false ∧
        w.writeOk (download_cache_path env url c) = false ∧
        download_wallpaper env url c w =
          (none, (w.emit (Event.httpGet url)).emit
            (Event.write (download_cache_path env url c)))) ∨
      (g_file_test_exists w (download_cache_path env url c) = false ∧
        download_wallpaper env url c w =
          (some (download_cache_path env url c),
            ((w.emit (Event.httpGet url)).emit
              (Event.write (download_cache_path env url c))).setNode
              (download_cache_path env url c)
              (some { isDir := false, st_mtime := w.clock,
                      content := (w.http url).response_body }))) := by
  cases hex : g_file_test_exists w (download_cache_path env url c) with
  | true => exact Or.inl ⟨rfl, download_wallpaper_hit env url c w hex⟩
  | false =>
    by_cases hst : (w.http url).status_code = SOUP_STATUS_OK
    · cases hw : w.writeOk (download_cache_path env url c) with
      | false =>
        refine Or.inr (Or.inr (Or.inl ⟨rfl, rfl, ?_⟩))
        simp [download_wallpaper, hex, hst, g_file_set_contents, hw]
      | true =>
        refine Or.inr (Or.inr (Or.inr ⟨rfl, ?_⟩))
        simp [download_wallpaper, hex, hst, g_file_set_contents, hw]
    · refine Or.inr (Or.inl ⟨rfl, hst, ?_⟩)
      simp [download_wallpaper, hex, hst]

/-- C4: whenever a file named `L = c/digest(u).jpg` exists,
`download_wallpaper` returns `L` and leaves the world as it is (no request, no
write); and after a call that returned a path, that path is `L` and every
later call on the resulting file system, whatever the remote side would now
answer, again returns `L` and leaves the world as it is. -/
theorem download_wallpaper_idempotent (env : Env) (url c : String) (w : World) :
    (g_file_test_exists w (download_cache_path env url c) = true →
        download_wallpaper env url c w = (some (download_cache_path env url c), w)) ∧
      (∀ p, (download_wallpaper env url c w).1 = some p →
        p = download_cache_path env url c ∧
          ∀ w2 : World, w2.fs = (download_wallpaper env url c w).2.fs →
            download_wallpaper env url c w2 = (some (download_cache_path env url c), w2)) := by
  refine ⟨download_wallpaper_hit env url c w, ?_⟩
  intro p hp
  rcases download_wallpaper_cases env url c w with
    ⟨hex, h⟩ | ⟨_, _, h⟩ | ⟨_, _, h⟩ | ⟨_, h⟩
  · rw [h] at hp ⊢
    refine ⟨by cases hp; rfl, ?_⟩
    intro w2 hfs
    exact download_wallpaper_hit env url c w2
      ((g_file_test_exists_congr w w2 _ hfs).trans hex)
  · rw [h] at hp; cases hp
  · rw [h] at hp; cases hp
  · rw [h] at hp ⊢
    refine ⟨by cases hp; rfl, ?_⟩
    intro w2 hfs
    apply download_wallpaper_hit
    simp [g_file_test_exists, hfs]

/-- Witness for C4: after the happy-path download the remote side answers
`404`, and the second call still returns the cached path without a request. -/
theorem download_wallpaper_idempotent_witness :
    (download_wallpaper scenarioEnv scenarioUrl scenarioBackgrounds happyWorld).1 =
        some scenarioLocal ∧
      (offlineWorld.http scenarioUrl).status_code = 404 ∧
      download_wallpaper scenarioEnv scenarioUrl scenarioBackgrounds offlineWorld =
        (some (download_cache_path scenarioEnv scenarioUrl scenarioBackgrounds),
          offlineWorld) ∧
      download_wallpaper scenarioEnv scenarioUrl scenarioBackgrounds
          (offlineWorld.emit (Event.system "true")) =
        (some (download_cache_path scenarioEnv scenarioUrl scenarioBackgrounds),
          offlineWorld.emit (Event.system "true")) :=
  ⟨by decide, by decide,
    ((download_wallpaper_idempotent scenarioEnv scenarioUrl scenarioBackgrounds
      happyWorld).2 scenarioLocal (by decide)).2 offlineWorld rfl,
    (download_wallpaper_idempotent scenarioEnv scenarioUrl scenarioBackgrounds
      (offlineWorld.emit (Event.system "true"))).1 (by decide)⟩

/-- Two cache paths under one root coincide exactly when the digests do. -/
theorem download_cache_path_eq_iff (env : Env) (u u' c : String) :
    download_cache_path env u' c = download_cache_path env u c ↔ env.md5 u' = env.md5 u := by
  constructor
  · intro h
    have h' := congrArg String.data h
    simp only [download_cache_path, compute_md5, String.data_append] at h'
    have h2 := List.append_cancel_left (List.append_cancel_left h')
    exact String.ext (List.append_cancel_right h2)
  · intro h
    simp [download_cache_path, compute_md5, h]

theorem cacheComplete_of_fs_eq (env : Env) (c : String) (done : List (String × Bytes))
    (w w2 : World) (hfs : w2.fs = w.fs) (h : CacheComplete env c done w) :
    CacheComplete env c done w2 := by
  intro u node hn
  rw [hfs] at hn
  exact h u node hn

/-- One call preserves completeness, once the transfer it completed (if any)
is added to the record. -/
theorem cacheComplete_step (env : Env) (c : String) (done : List (String × Bytes))
    (call : DownloadCall) (w : World) (h : CacheComplete env c done w) :
    CacheComplete env c
      (done ++
        (if (!g_file_test_exists (call.enter w) (download_cache_path env call.url c)) &&
            (download_wallpaper env call.url c (call.enter w)).1.isSome
          then [(call.url, (call.http call.url).response_body)] else []))
      (download_wallpaper env call.url c (call.enter w)).2 := by
  have h0 : CacheComplete env c done (call.enter w) :=
    cacheComplete_of_fs_eq env c done w _ rfl h
  have hmono : ∀ (extra : List (String × Bytes)) (w2 : World),
      w2.fs = (call.enter w).fs → CacheComplete env c (done ++ extra) w2 := by
    intro extra w2 hfs u node hn
    obtain ⟨u', body, hmem, hpath, hc⟩ := cacheComplete_of_fs_eq env c done _ w2 hfs h0 u node hn
    exact ⟨u', body, List.mem_append_left _ hmem, hpath, hc⟩
  rcases download_wallpaper_cases env call.url c (call.enter w) with
    ⟨_, hd⟩ | ⟨_, _, hd⟩ | ⟨_, _, hd⟩ | ⟨hex, hd⟩
  · rw [hd]; exact hmono _ _ rfl
  · rw [hd]; exact hmono _ _ rfl
  · rw [hd]; exact hmono _ _ rfl
  · rw [hd]
    simp only [hex, Bool.not_false, Option.isSome_some, Bool.and_self, if_true]
    intro u node hn
    by_cases hp : download_cache_path env u c = download_cache_path env call.url c
    · rw [hp] at hn
      simp only [setNode_fs_same] at hn
      cases hn
      exact ⟨call.url, (call.http call.url).response_body,
        List.mem_append_right _ (List.mem_singleton.2 rfl), hp.symm, rfl⟩
    · rw [setNode_fs_other _ _ _ _ hp] at hn
      obtain ⟨u', body, hmem, hpath, hc⟩ := h0 u node hn
      exact ⟨u', body, List.mem_append_left _ hmem, hpath, hc⟩

theorem cacheComplete_session (env : Env) (c : String) (calls : List DownloadCall) :
    ∀ (w : World) (done : List (String × Bytes)), CacheComplete env c done w →
      CacheComplete env c (done ++ (download_session env c calls w).2)
        (download_session env c calls w).1 := by
  induction calls with
  | nil =>
    intro w done h
    simpa [download_session] using h
  | cons call rest ih =>
    intro w done h
    have hstep := cacheComplete_step env c done call w h
    have hrest := ih _ _ hstep
    unfold download_session
    simp only
    split
    · rename_i hc
      simp only [hc, if_true, List.append_assoc, List.singleton_append] at hrest
      exact hrest
    · rename_i hc
      simp only [hc, Bool.false_eq_true, if_false, List.append_nil] at hrest
      exact hrest

/-- C9: a call of `download_wallpaper` that fails, through the status check or
through a failed write, leaves the file system as it was, with no file at the
cache path; and along every sequence of calls on a cache root, under any
remote side and any disk conditions, a file at a cache path always holds the
full body of a completed transfer to that path (cache paths coincide exactly
when the digests of the URLs do). -/
theorem download_wallpaper_no_partial_file (env : Env) (c : String)
    (calls : List DownloadCall) (w : World) (done : List (String × Bytes))
    (hinit : CacheComplete env c done w) :
    (∀ url (w0 : World), (download_wallpaper env url c w0).1 = none →
        (download_wallpaper env url c w0).2.fs = w0.fs ∧
          (download_wallpaper env url c w0).2.fs (download_cache_path env url c) = none) ∧
      CacheComplete env c (done ++ (download_session env c calls w).2)
        (download_session env c calls w).1 ∧
      (∀ u u', download_cache_path env u' c = download_cache_path env u c ↔
        env.md5 u' = env.md5 u) := by
  refine ⟨?_, cacheComplete_session env c calls w done hinit,
    fun u u' => download_cache_path_eq_iff env u u' c⟩
  intro url w0 hnone
  rcases download_wallpaper_cases env url c w0 with
    ⟨_, hd⟩ | ⟨hex, _, hd⟩ | ⟨hex, _, hd⟩ | ⟨_, hd⟩
  · rw [hd] at hnone; cases hnone
  · rw [hd]
    refine ⟨rfl, ?_⟩
    simpa [g_file_test_exists] using hex
  · rw [hd]
    refine ⟨rfl, ?_⟩
    simpa [g_file_test_exists] using hex
  · rw [hd] at hnone; cases hnone

/-- Witness for C9: starting from an empty cache, a call that meets a failing
remote side and a call whose write fails leave no file; the third call
succeeds and the file holds the whole body. -/
theorem download_wallpaper_no_partial_file_witness :
    CacheComplete scenarioEnv scenarioBackgrounds [] emptyWorld ∧
      CacheComplete scenarioEnv scenarioBackgrounds
        ([] ++ (download_session scenarioEnv scenarioBackgrounds scenarioCalls emptyWorld).2)
        (download_session scenarioEnv scenarioBackgrounds scenarioCalls emptyWorld).1 ∧
      (download_session scenarioEnv scenarioBackgrounds (scenarioCalls.take 2)
        emptyWorld).1.fs scenarioLocal = none ∧
      (download_session scenarioEnv scenarioBackgrounds scenarioCalls emptyWorld).1.fs
        scenarioLocal = some { isDir := false, st_mtime := 3, content := [9, 9, 9] } ∧
      (download_session scenarioEnv scenarioBackgrounds scenarioCalls emptyWorld).2 =
        [(scenarioUrl, [9, 9, 9])] :=
  have hinit : CacheComplete scenarioEnv scenarioBackgrounds [] emptyWorld := by
    intro u node hn
    cases hn
  ⟨hinit,
    (download_wallpaper_no_partial_file scenarioEnv scenarioBackgrounds scenarioCalls
      emptyWorld [] hinit).2.1,
    by decide, by decide, by decide⟩

/-! ## Background applier -/

/-- C7, evaluated at a path with quote characters: the entry `a" "b.jpg` of the
wallpaper directory is enumerated, and the command line built for its path
makes the shell run `feh` with two file arguments, neither of which is the
path. -/
theorem feh_command_splits_quoted_path :
    get_image_files scenarioEnv
        { emptyWorld with readdir := fun _ => some [quotedName] } WALLPAPER_DIR =
        ["/home/jared/wallpapers/a\" \"b.jpg"] ∧
      feh_command "/home/jared/wallpapers/a\" \"b.jpg" =
        "feh --bg-scale \"/home/jared/wallpapers/a\" \"b.jpg\"" ∧
      sh_words (feh_command "/home/jared/wallpapers/a\" \"b.jpg") =
        some ["feh", "--bg-scale", "/home/jared/wallpapers/a", "b.jpg"] ∧
      sh_words (feh_command "/home/jared/wallpapers/a\" \"b.jpg") ≠
        some ["feh", "--bg-scale", "/home/jared/wallpapers/a\" \"b.jpg"] ∧
      sh_words (feh_command "/home/jared/wallpapers/a b.jpg") =
        some ["feh", "--bg-scale", "/home/jared/wallpapers/a b.jpg"] := by
  decide

/-- Inside double quotes, characters other than the quote, the backslash, the
dollar and the backquote are taken as they are, up to the closing quote. -/
theorem sh_words_aux_double_plain (cs acc : List Char)
    (h : ∀ ch ∈ cs, ch ≠ DQUOTE ∧ ch ≠ BACKSLASH ∧ ch ≠ '$' ∧ ch ≠ BACKQUOTE) :
    sh_words_aux ShQuote.double (some acc) (cs ++ [DQUOTE]) = some [String.mk (acc ++ cs)] := by
  induction cs generalizing acc with
  | nil => simp [sh_words_aux, sh_step, shFlush]
  | cons ch rest ih =>
    obtain ⟨h1, h2, h3, h4⟩ := h ch (List.mem_cons_self _ _)
    have hrest : ∀ x ∈ rest, x ≠ DQUOTE ∧ x ≠ BACKSLASH ∧ x ≠ '$' ∧ x ≠ BACKQUOTE :=
      fun x hx => h x (List.mem_cons_of_mem _ hx)
    rw [List.cons_append]
    simp only [sh_words_aux, sh_step, h1, h2, h3, h4, if_false,
      Bool.or_self, decide_False, Bool.false_eq_true, shPush, Option.getD]
    rw [ih _ hrest]
    simp

/-- Lexing an input is lexing an initial segment of it and going on from the
state reached. -/
theorem sh_words_aux_append (pre rest : List Char) :
    ∀ (st : ShQuote) (cur : Option (List Char)),
      sh_words_aux st cur (pre ++ rest) =
        match sh_run st cur pre with
        | none => none
        | some r => (sh_words_aux r.1 r.2.1 rest).map (fun ws => r.2.2 ++ ws) := by
  induction pre with
  | nil =>
    intro st cur
    simp [sh_run]
  | cons ch pre ih =>
    intro st cur
    rw [List.cons_append]
    simp only [sh_words_aux, sh_run]
    cases hstep : sh_step st cur ch with
    | none => rfl
    | some r =>
      obtain ⟨st1, cur1, done⟩ := r
      simp only [ih st1 cur1]
      cases hrun : sh_run st1 cur1 pre with
      | none => rfl
      | some r2 => simp [Option.map_map, Function.comp_def]

/-- Paths free of quote, backslash, dollar and backquote characters reach
`feh` as one argument. -/
theorem feh_command_single_argument (filepath : String)
    (h : ∀ ch ∈ filepath.data,
      ch ≠ DQUOTE ∧ ch ≠ BACKSLASH ∧ ch ≠ '$' ∧ ch ≠ BACKQUOTE) :
    sh_words (feh_command filepath) = some ["feh", "--bg-scale", filepath] := by
  have hrun : sh_run ShQuote.unquoted none "feh --bg-scale \"".data =
      some (ShQuote.double, some [], ["feh", "--bg-scale"]) := by decide
  have hdata : ("feh --bg-scale \"" ++ filepath ++ "\"").data =
      "feh --bg-scale \"".data ++ (filepath.data ++ [DQUOTE]) := by
    simp only [String.data_append, List.append_assoc]
    rfl
  unfold sh_words feh_command
  rw [hdata, sh_words_aux_append, hrun]
  simp only [sh_words_aux_double_plain _ _ h]
  simp

/-! ## Orchestrator -/

end Rwall
